import Mathlib

/-!
Verification of the pi-door-security client agent against its specification.

The definitions below are a shallow embedding of the Rust sources under
`client_server/src`: the alarm state machine (`state/transitions.rs`,
`state/machine.rs`), the mock GPIO driver (`gpio/mock.rs`), the offline
event queue (`events/queue.rs`), the queue replay loop
(`cloud/queue_manager.rs`), the reconnect backoff (`cloud/reconnect.rs`)
and the local arm/disarm HTTP handlers (`api/handlers/arm_disarm.rs`).
Machine integers are modelled as `Nat` (all the quantities involved are
non-negative counters, seconds or byte values), fallible operations whose
error paths the claims do not touch are modelled as total functions, and
the asynchronous timer service is modelled by the synchronous contents of
the timer manager's handle map.
-/

namespace PiDoor

/-- Alarm lifecycle states, from `state/shared.rs` (`enum AlarmState`). -/
inductive AlarmState where
  | Disarmed
  | ExitDelay
  | Armed
  | EntryDelay
  | Alarm
deriving DecidableEq, Repr

/-- The snake_case rendering of an alarm state, from the `Display`
implementation in `state/shared.rs`. -/
def alarmStateString : AlarmState → String
  | .Disarmed => "disarmed"
  | .ExitDelay => "exit_delay"
  | .Armed => "armed"
  | .EntryDelay => "entry_delay"
  | .Alarm => "alarm"

/-- Event origin, from `events/types.rs` (`enum EventSource`). -/
inductive EventSource where
  | Local
  | Ws
  | Cloud
  | Ble
  | Rf
  | System
deriving DecidableEq, Repr

/-- Events driving the state machine, from `events/types.rs` (`enum Event`).
Optional second-precision payloads are `Option Nat`. -/
inductive Event where
  | UserArm (source : EventSource) (exit_delay_s : Option Nat)
  | UserDisarm (source : EventSource) (auto_rearm_s : Option Nat)
  | DoorOpen
  | DoorClose
  | TimerExitExpired
  | TimerEntryExpired
  | TimerAutoRearmExpired
  | TimerSirenExpired
  | ConnectivityOnline
  | ConnectivityOffline
  | SirenControl (isOn : Bool) (duration_s : Option Nat)
  | FloodlightControl (isOn : Bool) (duration_s : Option Nat)
  | RfCodeReceived (code : String)
deriving DecidableEq, Repr

/-- Siren / floodlight outputs, from `state/shared.rs` (`struct ActuatorState`). -/
structure ActuatorState where
  siren : Bool
  floodlight : Bool
deriving DecidableEq, Repr

/-- Timer identities, from `events/types.rs` (`enum TimerId`). -/
inductive TimerId where
  | ExitDelay
  | EntryDelay
  | AutoRearm
  | Siren
  | Floodlight
deriving DecidableEq, Repr

/-- Timer durations, from `config/schema.rs` (`struct TimerConfig`). -/
structure TimerConfig where
  exit_delay_s : Nat
  entry_delay_s : Nat
  auto_rearm_s : Nat
  siren_max_s : Nat
deriving DecidableEq, Repr

/-- The defaults set in `config/schema.rs` (`timers.*`). -/
def defaultTimerConfig : TimerConfig :=
  { exit_delay_s := 30, entry_delay_s := 30, auto_rearm_s := 120, siren_max_s := 120 }

/-- The contents of the timer manager's `HashMap<TimerId, JoinHandle>`
(`StateMachine::timer_manager` in `state/machine.rs`): one optional live
entry per identity.  Each entry records `(generation, duration_s)`, where
the generation is the index of the `Start` command that spawned the task;
the machine itself never reads it — it only serves to tell apart the task
a stale expiry event came from. -/
structure TimerMap where
  exitDelay : Option (Nat × Nat)
  entryDelay : Option (Nat × Nat)
  autoRearm : Option (Nat × Nat)
  siren : Option (Nat × Nat)
  floodlight : Option (Nat × Nat)
deriving DecidableEq, Repr

/-- The empty handle map (also the result of `TimerCommand::CancelAll`). -/
def TimerMap.empty : TimerMap := ⟨none, none, none, none, none⟩

/-- Replace the handle for one identity (a `Start` aborts and supersedes the
previous handle, `state/machine.rs` lines 331-353). -/
def TimerMap.set (m : TimerMap) (id : TimerId) (v : Option (Nat × Nat)) : TimerMap :=
  match id with
  | .ExitDelay => { m with exitDelay := v }
  | .EntryDelay => { m with entryDelay := v }
  | .AutoRearm => { m with autoRearm := v }
  | .Siren => { m with siren := v }
  | .Floodlight => { m with floodlight := v }

/-- Look up the handle for one identity. -/
def TimerMap.get (m : TimerMap) (id : TimerId) : Option (Nat × Nat) :=
  match id with
  | .ExitDelay => m.exitDelay
  | .EntryDelay => m.entryDelay
  | .AutoRearm => m.autoRearm
  | .Siren => m.siren
  | .Floodlight => m.floodlight

/-- The state owned by the machine: the shared-state fields it mutates
(`state/shared.rs`), the timer manager's handle map, and the observable
event history.  `last_events` is the recent-events ring (capacity 50),
`broadcasts` the sequence handed to `EventBus::broadcast`; both record the
event payload of each stamped envelope. `next_gen` counts `Start` commands
to label timer generations. -/
structure MachineState where
  alarm_state : AlarmState
  door_open : Bool
  actuators : ActuatorState
  timers : TimerMap
  next_gen : Nat
  last_events : List Event
  broadcasts : List Event
deriving DecidableEq, Repr

/-- Initial state: `SharedState::default` (`Disarmed`, door closed, outputs
off) with no timers running and no history. -/
def initState : MachineState :=
  { alarm_state := .Disarmed
    door_open := false
    actuators := { siren := false, floodlight := false }
    timers := TimerMap.empty
    next_gen := 0
    last_events := []
    broadcasts := [] }

/-- Transition table, translated clause for clause from
`next_state` in `state/transitions.rs`. -/
def next_state (current : AlarmState) (event : Event) : Option AlarmState :=
  match current, event with
  | .Disarmed, .UserArm _ _ => some .ExitDelay
  | .ExitDelay, .TimerExitExpired => some .Armed
  | .ExitDelay, .UserDisarm _ _ => some .Disarmed
  | .Armed, .DoorOpen => some .EntryDelay
  | .Armed, .UserDisarm _ _ => some .Disarmed
  | .EntryDelay, .TimerEntryExpired => some .Alarm
  | .EntryDelay, .UserDisarm _ _ => some .Disarmed
  | .Alarm, .UserDisarm _ _ => some .Disarmed
  | .Alarm, .TimerAutoRearmExpired => some .ExitDelay
  | .Disarmed, .TimerAutoRearmExpired => some .ExitDelay
  | _, _ => none

/-- Embedding of `actuator_state_for` in `state/transitions.rs`. -/
def actuator_state_for (alarm_state : AlarmState) (in_alarm : Bool) : ActuatorState :=
  match alarm_state with
  | .Alarm => { siren := in_alarm, floodlight := true }
  | _ => { siren := false, floodlight := false }

/-- Embedding of `StateMachine::transition_to`: overwrite the alarm state. -/
def transition_to (s : MachineState) (ns : AlarmState) : MachineState :=
  { s with alarm_state := ns }

/-- Embedding of `StateMachine::start_timer` as received by the timer manager: the new
task replaces any live handle of the same identity. -/
def startTimer (s : MachineState) (id : TimerId) (duration_s : Nat) : MachineState :=
  { s with timers := s.timers.set id (some (s.next_gen, duration_s))
           next_gen := s.next_gen + 1 }

/-- Embedding of `StateMachine::cancel_timer` as received by the timer manager. -/
def cancelTimer (s : MachineState) (id : TimerId) : MachineState :=
  { s with timers := s.timers.set id none }

/-- Embedding of `StateMachine::cancel_all_timers` as received by the timer manager. -/
def cancelAllTimers (s : MachineState) : MachineState :=
  { s with timers := TimerMap.empty }

/-- Embedding of `StateMachine::handle_user_arm` (`state/machine.rs` lines 118-132). -/
def handle_user_arm (cfg : TimerConfig) (s : MachineState)
    (exit_delay_s : Option Nat) : MachineState :=
  match next_state s.alarm_state (.UserArm .System exit_delay_s) with
  | some ns =>
      let s1 := transition_to s ns
      startTimer s1 .ExitDelay (exit_delay_s.getD cfg.exit_delay_s)
  | none => s

/-- Embedding of `StateMachine::handle_user_disarm` (`state/machine.rs` lines 134-163):
cancel all timers, transition, force outputs off, then start the auto-rearm
timer when the requested-or-configured value is positive. -/
def handle_user_disarm (cfg : TimerConfig) (s : MachineState)
    (auto_rearm_s : Option Nat) : MachineState :=
  match next_state s.alarm_state (.UserDisarm .System auto_rearm_s) with
  | some ns =>
      let s1 := cancelAllTimers s
      let s2 := transition_to s1 ns
      let s3 := { s2 with actuators := { siren := false, floodlight := false } }
      let auto_rearm := auto_rearm_s.getD cfg.auto_rearm_s
      if 0 < auto_rearm then startTimer s3 .AutoRearm auto_rearm else s3
  | none => s

/-- Embedding of `StateMachine::handle_door_open`: the door flag is always updated; the
transition and entry-delay timer happen only from `Armed`. -/
def handle_door_open (cfg : TimerConfig) (s : MachineState) : MachineState :=
  let s0 := { s with door_open := true }
  match next_state s0.alarm_state .DoorOpen with
  | some ns =>
      let s1 := transition_to s0 ns
      startTimer s1 .EntryDelay cfg.entry_delay_s
  | none => s0

/-- Embedding of `StateMachine::handle_door_close`: door flag only. -/
def handle_door_close (s : MachineState) : MachineState :=
  { s with door_open := false }

/-- Embedding of `StateMachine::handle_timer_exit_expired`. -/
def handle_timer_exit_expired (s : MachineState) : MachineState :=
  match next_state s.alarm_state .TimerExitExpired with
  | some ns => transition_to s ns
  | none => s

/-- Embedding of `StateMachine::handle_timer_entry_expired`: on the `EntryDelay → Alarm`
transition both outputs go on and the siren-max timer starts. -/
def handle_timer_entry_expired (cfg : TimerConfig) (s : MachineState) : MachineState :=
  match next_state s.alarm_state .TimerEntryExpired with
  | some ns =>
      let s1 := transition_to s ns
      let s2 := { s1 with actuators := { siren := true, floodlight := true } }
      startTimer s2 .Siren cfg.siren_max_s
  | none => s

/-- Embedding of `StateMachine::handle_timer_auto_rearm_expired`: transition (from
`Alarm` or `Disarmed`) and start the exit delay; the actuators are not
touched. -/
def handle_timer_auto_rearm_expired (cfg : TimerConfig) (s : MachineState) : MachineState :=
  match next_state s.alarm_state .TimerAutoRearmExpired with
  | some ns =>
      let s1 := transition_to s ns
      startTimer s1 .ExitDelay cfg.exit_delay_s
  | none => s

/-- Embedding of `StateMachine::handle_timer_siren_expired`: unconditionally drop the
siren output. -/
def handle_timer_siren_expired (s : MachineState) : MachineState :=
  { s with actuators := { s.actuators with siren := false } }

/-- Embedding of `StateMachine::handle_siren_control` (`state/machine.rs` lines 246-265). -/
def handle_siren_control (s : MachineState) (isOn : Bool)
    (duration_s : Option Nat) : MachineState :=
  let s1 := { s with actuators := { s.actuators with siren := isOn } }
  if isOn then
    match duration_s with
    | some d => startTimer s1 .Siren d
    | none => s1
  else
    cancelTimer s1 .Siren

/-- Embedding of `StateMachine::handle_floodlight_control`, symmetric to the siren. -/
def handle_floodlight_control (s : MachineState) (isOn : Bool)
    (duration_s : Option Nat) : MachineState :=
  let s1 := { s with actuators := { s.actuators with floodlight := isOn } }
  if isOn then
    match duration_s with
    | some d => startTimer s1 .Floodlight d
    | none => s1
  else
    cancelTimer s1 .Floodlight

/-- Embedding of `SharedState::add_event`: the recent-events ring pops the oldest entry
once 50 are held, then appends. -/
def addEventRing (l : List Event) (e : Event) : List Event :=
  (if 50 ≤ l.length then l.tail else l) ++ [e]

/-- Embedding of `StateMachine::process_event` (`state/machine.rs` lines 60-116): one
dispatch on the event, then the stamped envelope is pushed to the
recent-events ring and broadcast.  Events with no machine action
(connectivity, RF) only produce the envelope. -/
def processEvent (cfg : TimerConfig) (s : MachineState) (e : Event) : MachineState :=
  let s1 :=
    match e with
    | .UserArm _ d => handle_user_arm cfg s d
    | .UserDisarm _ r => handle_user_disarm cfg s r
    | .DoorOpen => handle_door_open cfg s
    | .DoorClose => handle_door_close s
    | .TimerExitExpired => handle_timer_exit_expired s
    | .TimerEntryExpired => handle_timer_entry_expired cfg s
    | .TimerAutoRearmExpired => handle_timer_auto_rearm_expired cfg s
    | .TimerSirenExpired => handle_timer_siren_expired s
    | .SirenControl b d => handle_siren_control s b d
    | .FloodlightControl b d => handle_floodlight_control s b d
    | _ => s
  { s1 with last_events := addEventRing s1.last_events e
            broadcasts := s1.broadcasts ++ [e] }

/-- Run the single-consumer event loop (`main.rs` lines 70-77) over a
sequence of delivered events. -/
def run (cfg : TimerConfig) (events : List Event) : MachineState :=
  events.foldl (processEvent cfg) initState

/-- What processing `UserDisarm` from a non-disarmed state produces:
`Disarmed`, outputs off, every timer handle gone except that the auto-rearm
timer is running exactly when the requested-or-configured value is
positive. -/
def disarmOutcome (cfg : TimerConfig) (auto_rearm_s : Option Nat)
    (s2 : MachineState) : Prop :=
  s2.alarm_state = .Disarmed ∧
  s2.actuators = ⟨false, false⟩ ∧
  s2.timers.exitDelay = none ∧
  s2.timers.entryDelay = none ∧
  s2.timers.siren = none ∧
  s2.timers.floodlight = none ∧
  (s2.timers.autoRearm ≠ none ↔ 0 < auto_rearm_s.getD cfg.auto_rearm_s)

/-- Delivery sequence for the C2 counterexample: arm, disarm (explicitly
with 0 s auto-rearm so no auto-rearm timer starts), arm again.  The first
arm spawns the generation-0 exit-delay task; the disarm's `CancelAll`
aborts it; the second arm spawns generation 1. -/
def c2Trace : List Event :=
  [.UserArm .Local (some 30), .UserDisarm .Local (some 0), .UserArm .Local (some 30)]

/-- True of an event that can neither raise the siren manually
(`SirenControl` with `isOn = true`) nor carry the machine out of `Alarm`
while leaving the siren on (`TimerAutoRearmExpired`). -/
def sirenSafeEvent : Event → Bool
  | .SirenControl true _ => false
  | .TimerAutoRearmExpired => false
  | _ => true

/-- Event sequence refuting C8 as stated: disarm with the default
auto-rearm pending, re-arm, let the door trip the alarm, then let the
auto-rearm timer fire while in `Alarm`. -/
def c8Trace : List Event :=
  [.UserArm .Local (some 1), .UserDisarm .Local none, .UserArm .Local (some 1),
   .TimerExitExpired, .DoorOpen, .TimerEntryExpired, .TimerAutoRearmExpired]

/-- The mock driver's inner state, from `gpio/mock.rs` (`struct MockGpioState`). -/
structure GpioState where
  door_open : Bool
  siren : Bool
  floodlight : Bool
  initialized : Bool
deriving DecidableEq, Repr

/-- Embedding of `MockGpio::emergency_shutdown` (`gpio/mock.rs` lines 127-132): drive
both outputs low, synchronously, leaving the rest of the state alone. -/
def emergency_shutdown (s : GpioState) : GpioState :=
  { s with siren := false, floodlight := false }

/-- Embedding of `MockGpio::get_siren_state`: the driver-interface read of the siren pin. -/
def get_siren_state (s : GpioState) : Bool := s.siren

/-- Embedding of `MockGpio::get_floodlight_state`: the driver-interface read of the
floodlight pin. -/
def get_floodlight_state (s : GpioState) : Bool := s.floodlight

/-- The panic hook installed in `main.rs` lines 53-57: it captures a clone
of the GPIO handle and calls `emergency_shutdown` on it. -/
def panicHook (s : GpioState) : GpioState := emergency_shutdown s

/-- Response body of `POST /v1/arm`, from `api/handlers/arm_disarm.rs`
(`struct ArmResponse`). -/
structure ArmResponse where
  state : String
  exit_delay_s : Nat
deriving DecidableEq, Repr

/-- Response body of `POST /v1/disarm` (`struct DisarmResponse`). -/
structure DisarmResponse where
  state : String
  auto_rearm_s : Option Nat
deriving DecidableEq, Repr

/-- The `arm` handler (`api/handlers/arm_disarm.rs` lines 34-61).  `current`
is the alarm state held in the shared `ApiContext` at request time — the
handler never reads it.  The result records the events emitted on the bus,
the HTTP status, and the response body; the body's state field is the
hard-coded string `"exit_delay"` and the echoed delay falls back to the
literal 30. -/
def armHandler (_current : AlarmState) (exit_delay_s : Option Nat) :
    List Event × Nat × ArmResponse :=
  ([.UserArm .Local exit_delay_s], 202,
    { state := "exit_delay", exit_delay_s := exit_delay_s.getD 30 })

/-- The `disarm` handler (`api/handlers/arm_disarm.rs` lines 64-88),
analogous: one event, status 202, hard-coded `"disarmed"` body. -/
def disarmHandler (_current : AlarmState) (auto_rearm_s : Option Nat) :
    List Event × Nat × DisarmResponse :=
  ([.UserDisarm .Local auto_rearm_s], 202,
    { state := "disarmed", auto_rearm_s := auto_rearm_s })

/-- Embedding of `ReconnectManager` (`cloud/reconnect.rs`), durations in whole seconds. -/
structure ReconnectManager where
  min_backoff : Nat
  max_backoff : Nat
  current_backoff : Nat
deriving DecidableEq, Repr

/-- Embedding of `ReconnectManager::new`: the current delay starts at the minimum. -/
def ReconnectManager.new (min_backoff_s max_backoff_s : Nat) : ReconnectManager :=
  { min_backoff := min_backoff_s, max_backoff := max_backoff_s,
    current_backoff := min_backoff_s }

/-- The jitter values `ReconnectManager::backoff` can sample.  Modelled
from the floating-point sampling in `reconnect.rs`: `jitter` is the
`Duration` `(2·current)/4 = current/2` seconds, and `jitter_amount`
truncates `random::<f64>() * jitter.as_secs_f64()` with the random factor
uniform in `[0, 1)` — so exactly the naturals strictly below `current/2`
(and 0 when `current = 0`). -/
def jitterPossible (current j : Nat) : Prop := j = 0 ∨ 2 * j < current

/-- The deterministic part of `ReconnectManager::backoff`: double the
current delay, add the sampled jitter, cap at the maximum. -/
def ReconnectManager.backoffStep (m : ReconnectManager) (j : Nat) : ReconnectManager :=
  { m with current_backoff := min (2 * m.current_backoff + j) m.max_backoff }

/-- An event envelope as the offline queue stores it (`events/types.rs`
`struct EventEnvelope`): the UTC timestamp reduced to its nanosecond count
(`timestamp_nanos`, non-negative for any post-1970 clock), the 16 UUID
bytes, the event and the client id. -/
structure QEnv where
  ts : Nat
  uuid : List Nat
  event : Event
  client_id : String
deriving DecidableEq, Repr

/-- Fixed-width big-endian byte encoding: `beBytes k n` is the `k`-byte
big-endian encoding of `n` (for `n < 256 ^ k` this is exactly
`to_be_bytes`). -/
def beBytes : Nat → Nat → List Nat
  | 0, _ => []
  | k + 1, n => n / 256 ^ k :: beBytes k (n % 256 ^ k)

/-- Embedding of `EventQueue::make_key` (`events/queue.rs` lines 154-160): the 8-byte
big-endian nanosecond timestamp followed by the 16 UUID bytes. -/
def make_key (e : QEnv) : List Nat := beBytes 8 e.ts ++ e.uuid

/-- Byte-string comparison as `sled` orders keys: lexicographic.  All keys
produced by `make_key` have length 24, so the shorter-is-prefix case never
distinguishes two keys. -/
def bytesLt : List Nat → List Nat → Bool
  | [], [] => false
  | [], _ :: _ => true
  | _ :: _, [] => false
  | a :: as, b :: bs =>
      if a < b then true
      else if b < a then false
      else bytesLt as bs

/-- The offline queue's durable map (`sled::Db`): an association list kept
sorted by byte key, iterated front to back. -/
abbrev Queue := List (List Nat × QEnv)

/-- Embedding of `sled::Db::insert`: ordered-map insertion, replacing on an equal key. -/
def sledInsert (k : List Nat) (v : QEnv) : Queue → Queue
  | [] => [(k, v)]
  | kv :: rest =>
      if bytesLt k kv.1 then (k, v) :: kv :: rest
      else if k = kv.1 then (k, v) :: rest
      else kv :: sledInsert k v rest

/-- The map invariant `sled` maintains: entries strictly increasing by key. -/
def sortedQ (q : Queue) : Prop := q.Pairwise (fun a b => bytesLt a.1 b.1 = true)

/-- Queue well-formedness for the ordering claims: sorted, every stored key
is the `make_key` of its envelope, and every timestamp fits `i64`'s
non-negative range (true of every `Utc::now()` reading). -/
def wfQ (q : Queue) : Prop :=
  sortedQ q ∧ ∀ kv ∈ q, kv.1 = make_key kv.2 ∧ kv.2.ts < 2 ^ 64

/-- Embedding of `EventQueue::dequeue_batch` (`events/queue.rs` lines 57-69): read the
first `limit` envelopes in key order; the store itself is returned
untouched. -/
def dequeue_batch (limit : Nat) (q : Queue) : List QEnv × Queue :=
  ((q.take limit).map Prod.snd, q)

/-- The age phase of `EventQueue::prune` (lines 105-127): collect and
delete every entry whose envelope timestamp is before the cutoff
`now − max_age`. -/
def agePrune (cutoff : Nat) (q : Queue) : Queue :=
  q.filter fun kv => ! decide (kv.2.ts < cutoff)

/-- The count phase of `EventQueue::prune` (lines 129-148): when the store
still holds more than `max_events` entries, delete the first
`len − max_events` in iteration order. -/
def countPrune (max_events : Nat) (q : Queue) : Queue :=
  if max_events < q.length then q.drop (q.length - max_events) else q

/-- Embedding of `EventQueue::prune`: the age phase runs first, then the count phase. -/
def prune (cutoff max_events : Nat) (q : Queue) : Queue :=
  countPrune max_events (agePrune cutoff q)

/-- Embedding of `EventQueue::enqueue` (lines 36-54): insert under `make_key`, then
prune. -/
def enqueue (cutoff max_events : Nat) (e : QEnv) (q : Queue) : Queue :=
  prune cutoff max_events (sledInsert (make_key e) e q)

/-- Embedding of `EventQueue::remove` (lines 72-81): bulk-delete the entries whose
recomputed keys match the given envelopes. -/
def removeEnvs (q : Queue) (sent : List QEnv) : Queue :=
  q.filter fun kv => ! sent.any (fun e => make_key e == kv.1)

/-- What one `enqueue` must achieve on the store: the pruning phases run in
age-then-count order, the new envelope is retained, the store respects the
count cap, and every entry dropped was either over-age or key-below (older
than) everything retained — never the newly enqueued envelope. -/
def enqueueOutcome (cutoff max_events : Nat) (e : QEnv) (q : Queue) : Prop :=
  enqueue cutoff max_events e q =
      countPrune max_events (agePrune cutoff (sledInsert (make_key e) e q)) ∧
  (make_key e, e) ∈ enqueue cutoff max_events e q ∧
  (enqueue cutoff max_events e q).length ≤ max_events ∧
  ∀ kv ∈ sledInsert (make_key e) e q, kv ∉ enqueue cutoff max_events e q →
    kv.2.ts < cutoff ∨
      ∀ kv2 ∈ enqueue cutoff max_events e q, bytesLt kv.1 kv2.1 = true

/-- What `dequeue_batch` must achieve: the returned envelopes are in
non-decreasing timestamp order, they are the oldest (no remaining entry has
a smaller timestamp), and the store is not modified. -/
def drainOutcome (limit : Nat) (q : Queue) : Prop :=
  ((dequeue_batch limit q).1.Pairwise fun x y => x.ts ≤ y.ts) ∧
  (∀ x ∈ (dequeue_batch limit q).1, ∀ kv ∈ q.drop limit, x.ts ≤ kv.2.ts) ∧
  (dequeue_batch limit q).2 = q

/-- Concrete envelopes for the queue witnesses. -/
def envA : QEnv := ⟨100, List.replicate 16 0, .DoorOpen, "client-1"⟩

def envB : QEnv := ⟨200, List.replicate 16 1, .DoorClose, "client-1"⟩

def envC : QEnv := ⟨300, List.replicate 16 2, .DoorOpen, "client-1"⟩

/-- A two-entry well-formed store. -/
def sampleQueue : Queue := [(make_key envA, envA), (make_key envB, envB)]

/-- Embedding of `QueueManager::replay` (`cloud/queue_manager.rs` lines 31-78).  Each
pass of the `loop` dequeues a batch, returns the accumulated count when the
batch is empty, otherwise sends envelopes until the first failure (`sent`
is the prefix the send function accepts — the `break` on a failure leaves
only the inner `for`), removes the sent envelopes and loops again.  The
unbounded `loop` is modelled with fuel: `none` means the fuel ran out with
the loop still running, so an execution that returns `none` for every fuel
value never terminates. -/
def replayFuel (send : QEnv → Bool) (batch_size : Nat) :
    Nat → Queue → Nat → Option (Nat × Queue)
  | 0, _, _ => none
  | fuel + 1, q, total =>
      let batch := (dequeue_batch batch_size q).1
      if batch.isEmpty then some (total, q)
      else
        let sent := batch.takeWhile send
        replayFuel send batch_size fuel (removeEnvs q sent) (total + sent.length)

/-- A one-envelope store — the failing input for C6. -/
def c6Queue : Queue := [(make_key envA, envA)]

/-- Claim C1, amended: for every alarm state other than `Disarmed`
(that is, `ExitDelay`, `Armed`, `EntryDelay` or `Alarm`), processing
`UserDisarm` yields `Disarmed` with all timers cancelled and both outputs
off; an auto-rearm timer is then started if and only if the payload value,
or the configured default when the payload is absent, is positive — not
only when the event carried `auto_rearm_s`. -/
theorem c1_disarm_from_any (cfg : TimerConfig) (s : MachineState)
    (src : EventSource) (r : Option Nat) (h : s.alarm_state ≠ .Disarmed) :
    disarmOutcome cfg r (processEvent cfg s (.UserDisarm src r)) := by
  rcases s with ⟨a, d, act, tm, g, le, bc⟩
  by_cases h0 : 0 < r.getD cfg.auto_rearm_s <;>
    cases a <;>
      simp_all [processEvent, handle_user_disarm, next_state, cancelAllTimers,
        transition_to, startTimer, TimerMap.set, TimerMap.empty, disarmOutcome]

/-- Witness for C1: disarming from `Armed` with a requested 5-second
auto-rearm. -/
theorem c1_disarm_witness :
    disarmOutcome defaultTimerConfig (some 5)
      (processEvent defaultTimerConfig { initState with alarm_state := .Armed }
        (.UserDisarm .Local (some 5))) :=
  c1_disarm_from_any defaultTimerConfig { initState with alarm_state := .Armed }
    .Local (some 5) (by decide)

/-- Counterexample to C1 as stated: after arming and reaching `Armed`, a
`UserDisarm` whose payload carries no `auto_rearm_s` still starts the
auto-rearm timer, because `handle_user_disarm` falls back to the configured
default (120 s in `config/schema.rs`).  The claim's "started only if the
event requested it (auto_rearm_s present)" is therefore false. -/
theorem c1_counterexample :
    (run defaultTimerConfig
      [.UserArm .Local (some 30), .TimerExitExpired,
       .UserDisarm .Local none]).timers.autoRearm = some (1, 120) := by decide

/-- Claim C10: processing `UserDisarm` while already `Disarmed` changes
nothing except appending the envelope to the recent-events ring and
broadcasting it: the transition table has no entry, so the handler body is
skipped — alarm state, door, actuators and every timer handle (including a
pending auto-rearm timer, which will still fire) are untouched. -/
theorem c10_disarm_noop_when_disarmed (cfg : TimerConfig) (s : MachineState)
    (src : EventSource) (r : Option Nat) (h : s.alarm_state = .Disarmed) :
    processEvent cfg s (.UserDisarm src r) =
      { s with last_events := addEventRing s.last_events (.UserDisarm src r)
               broadcasts := s.broadcasts ++ [.UserDisarm src r] } := by
  rcases s with ⟨a, d, act, tm, g, le, bc⟩
  simp only at h
  subst h
  simp [processEvent, handle_user_disarm, next_state]

/-- Witness for C10: a disarmed state holding a pending auto-rearm timer
handle; the event only lands in the ring and the broadcast log. -/
theorem c10_disarm_noop_witness :
    processEvent defaultTimerConfig
      { initState with timers := { TimerMap.empty with autoRearm := some (0, 120) } }
      (.UserDisarm .Local (some 7)) =
      { initState with
          timers := { TimerMap.empty with autoRearm := some (0, 120) }
          last_events := addEventRing initState.last_events (.UserDisarm .Local (some 7))
          broadcasts := initState.broadcasts ++ [.UserDisarm .Local (some 7)] } :=
  c10_disarm_noop_when_disarmed defaultTimerConfig
    { initState with timers := { TimerMap.empty with autoRearm := some (0, 120) } }
    .Local (some 7) rfl

/-- Counterexample to C2 as stated: the state machine keeps no generation
counter (`state/machine.rs` has none), so an expiry event carrying an older
generation is not dropped.  After `c2Trace` the machine is in `ExitDelay`
and the live exit-delay handle has generation 1; delivering the
`TimerExitExpired` emitted by the aborted generation-0 task — stale in the
claim's sense, its timer was cancelled and superseded — nevertheless causes
the `ExitDelay → Armed` transition, cutting the exit delay short. -/
theorem c2_counterexample :
    (run defaultTimerConfig c2Trace).alarm_state = .ExitDelay ∧
    (run defaultTimerConfig c2Trace).timers.exitDelay = some (1, 30) ∧
    (processEvent defaultTimerConfig (run defaultTimerConfig c2Trace)
        .TimerExitExpired).alarm_state = .Armed := by decide

/-- Claim C2, amended: the only guard against stale timer expiries is the
transition table.  A delay-timer expiry (`TimerExitExpired`,
`TimerEntryExpired` or `TimerAutoRearmExpired`) delivered in a state for
which the table has no entry causes no state transition and no side-effect:
the machine state is unchanged except for the envelope appended to the
recent-events ring and the broadcast.  An expiry delivered in a state with
a matching entry is processed normally even if its timer was cancelled or
superseded. -/
theorem c2_stale_expiry_table_guard (cfg : TimerConfig) (s : MachineState)
    (e : Event)
    (he : e = .TimerExitExpired ∨ e = .TimerEntryExpired ∨ e = .TimerAutoRearmExpired)
    (hn : next_state s.alarm_state e = none) :
    processEvent cfg s e =
      { s with last_events := addEventRing s.last_events e
               broadcasts := s.broadcasts ++ [e] } := by
  rcases he with rfl | rfl | rfl <;>
    simp [processEvent, handle_timer_exit_expired, handle_timer_entry_expired,
      handle_timer_auto_rearm_expired, hn]

/-- Witness for the amended C2: a `TimerExitExpired` delivered while
`Disarmed` (its timer long cancelled) is only recorded, never acted on. -/
theorem c2_stale_expiry_witness :
    processEvent defaultTimerConfig initState .TimerExitExpired =
      { initState with
          last_events := addEventRing initState.last_events .TimerExitExpired
          broadcasts := initState.broadcasts ++ [.TimerExitExpired] } :=
  c2_stale_expiry_table_guard defaultTimerConfig initState .TimerExitExpired
    (Or.inl rfl) rfl

/-- One event preserves the invariant "siren on implies state `Alarm`",
provided the event is neither a manual siren-on command nor an auto-rearm
expiry. -/
theorem siren_inv_step (cfg : TimerConfig) (s : MachineState) (e : Event)
    (hok : sirenSafeEvent e = true)
    (hs : s.actuators.siren = true → s.alarm_state = .Alarm) :
    (processEvent cfg s e).actuators.siren = true →
      (processEvent cfg s e).alarm_state = .Alarm := by
  rcases s with ⟨a, dr, act, tm, g, le, bc⟩
  cases e <;> cases a <;>
    try simp_all [processEvent, handle_user_arm, handle_user_disarm, handle_door_open,
      handle_door_close, handle_timer_exit_expired, handle_timer_entry_expired,
      handle_timer_auto_rearm_expired, handle_timer_siren_expired,
      handle_siren_control, handle_floodlight_control, next_state, transition_to,
      startTimer, cancelTimer, cancelAllTimers, sirenSafeEvent,
      apply_ite MachineState.actuators, apply_ite MachineState.alarm_state]
  all_goals
    rename_i isOn dur
  all_goals
    cases isOn <;> cases dur <;>
      simp_all [processEvent, handle_siren_control, handle_floodlight_control,
        next_state, transition_to, startTimer, cancelTimer, sirenSafeEvent,
        apply_ite MachineState.actuators, apply_ite MachineState.alarm_state]

/-- The invariant "siren on implies state `Alarm`" carries through any fold
of siren-safe events. -/
theorem siren_inv_run (cfg : TimerConfig) : ∀ (events : List Event) (s : MachineState),
    (∀ e ∈ events, sirenSafeEvent e = true) →
    (s.actuators.siren = true → s.alarm_state = .Alarm) →
    ((events.foldl (processEvent cfg) s).actuators.siren = true →
      (events.foldl (processEvent cfg) s).alarm_state = .Alarm)
  | [], _, _, hs => hs
  | e :: rest, s, hok, hs =>
      siren_inv_run cfg rest (processEvent cfg s e)
        (fun x hx => hok x (List.mem_cons_of_mem _ hx))
        (siren_inv_step cfg s e (hok e (List.mem_cons_self _ _)) hs)

/-- Claim C8, amended: in every reachable state, the siren output can be
true only while the alarm state is `Alarm`, unless a manual
`SirenControl {on: true}` command was issued (bounded or not) or an
auto-rearm expiry moved the machine out of `Alarm` — the
`Alarm → ExitDelay` auto-rearm transition does not reset the actuators and
leaves a sounding siren on. -/
theorem c8_siren_only_in_alarm (cfg : TimerConfig) (events : List Event)
    (hok : ∀ e ∈ events, sirenSafeEvent e = true)
    (hsiren : (run cfg events).actuators.siren = true) :
    (run cfg events).alarm_state = .Alarm :=
  siren_inv_run cfg events initState hok (by decide) hsiren

/-- Witness for the amended C8: the plain arm → door → alarm sequence ends
with the siren on and the state `Alarm`. -/
theorem c8_siren_witness :
    (run defaultTimerConfig
      [.UserArm .Local (some 1), .TimerExitExpired, .DoorOpen,
       .TimerEntryExpired]).alarm_state = .Alarm :=
  c8_siren_only_in_alarm defaultTimerConfig
    [.UserArm .Local (some 1), .TimerExitExpired, .DoorOpen, .TimerEntryExpired]
    (by decide) (by decide)

/-- Counterexample to C8 as stated: after `c8Trace` — which contains no
`SirenControl` command at all — the machine sits in `ExitDelay` with the
siren still on: `handle_timer_auto_rearm_expired` transitions
`Alarm → ExitDelay` without touching the actuators, so the siren is on
outside both of the claim's permitted cases. -/
theorem c8_counterexample :
    (run defaultTimerConfig c8Trace).actuators.siren = true ∧
    (run defaultTimerConfig c8Trace).alarm_state = .ExitDelay ∧
    (c8Trace.all fun e =>
      match e with
      | .SirenControl _ _ => false
      | _ => true) = true := by decide

/-- Claim C3: whatever siren/floodlight values any input sequence has left
on the driver, once a panic fires the hook both outputs read low through
the driver interface. -/
theorem c3_safe_state_on_panic (s : GpioState) :
    get_siren_state (panicHook s) = false ∧
    get_floodlight_state (panicHook s) = false :=
  ⟨rfl, rfl⟩

/-- Witness for C3 at a concrete pre-panic state with both outputs high. -/
theorem c3_safe_state_witness :
    get_siren_state (panicHook ⟨true, true, true, true⟩) = false ∧
    get_floodlight_state (panicHook ⟨true, true, true, true⟩) = false :=
  c3_safe_state_on_panic ⟨true, true, true, true⟩

/-- Claim C9, amended: each mutating endpoint translates the request body
into exactly one event on the bus and returns 202, but the body is a
hard-coded acknowledgement naming the intended target state ("exit_delay"
for arm, with the requested-or-30-second delay; "disarmed" for disarm,
echoing `auto_rearm_s`), identical for every current alarm state — not a
snapshot of the state machine. -/
theorem c9_handlers_emit_one_event (current : AlarmState)
    (ed ar : Option Nat) :
    armHandler current ed =
      ([.UserArm .Local ed], 202, { state := "exit_delay", exit_delay_s := ed.getD 30 }) ∧
    disarmHandler current ar =
      ([.UserDisarm .Local ar], 202, { state := "disarmed", auto_rearm_s := ar }) :=
  ⟨rfl, rfl⟩

/-- Counterexample to C9 as stated: with the system currently `Armed`, the
pre-transition snapshot would render as "armed", but the arm handler
answers "exit_delay" (and with the system in `Alarm`, the disarm handler
answers "disarmed"): the 202 body is not the pre-transition snapshot. -/
theorem c9_counterexample :
    (armHandler .Armed none).2.2.state = "exit_delay" ∧
    alarmStateString .Armed = "armed" ∧
    (armHandler .Armed none).2.2.state ≠ alarmStateString .Armed ∧
    (disarmHandler .Alarm none).2.2.state ≠ alarmStateString .Alarm := by
  refine ⟨rfl, rfl, ?_, ?_⟩ <;> decide

/-- Claim C7, amended: the delay starts at `min`; after an attempt with
sampled jitter `j` (any value the code can draw, i.e. `j < current/2` —
not `current/4` as claimed), the next delay is `min(max, 2·current + j)`,
hence it lies in `[min(max, 2·current), min(max, 2·current + ⌊(current−1)/2⌋)]`. -/
theorem c7_backoff_bounds (minB maxB c j : Nat) (hj : jitterPossible c j) :
    (ReconnectManager.new minB maxB).current_backoff = minB ∧
    min (2 * c) maxB ≤ (ReconnectManager.backoffStep ⟨minB, maxB, c⟩ j).current_backoff ∧
    (ReconnectManager.backoffStep ⟨minB, maxB, c⟩ j).current_backoff ≤
      min (2 * c + (c - 1) / 2) maxB := by
  refine ⟨rfl, ?_, ?_⟩ <;>
    · simp only [ReconnectManager.backoffStep]
      rcases hj with h | h <;> omega

/-- Witness for the amended C7: minimum 1 s, maximum 100 s, current delay
8 s, sampled jitter 3 s. -/
theorem c7_backoff_witness :
    (ReconnectManager.new 1 100).current_backoff = 1 ∧
    min (2 * 8) 100 ≤ (ReconnectManager.backoffStep ⟨1, 100, 8⟩ 3).current_backoff ∧
    (ReconnectManager.backoffStep ⟨1, 100, 8⟩ 3).current_backoff ≤
      min (2 * 8 + (8 - 1) / 2) 100 :=
  c7_backoff_bounds 1 100 8 3 (Or.inr (by omega))

/-- Counterexample to C7 as stated: with the current delay at 8 s the code
can draw jitter 3 (3 < 8/2), and the next delay becomes 19 s — outside the
claimed interval `[min(max, 2c), min(max, 2c + c/4)] = [16, 18]`.  The
spec's jitter bound `current/4` does not match the code's `next/4 =
current/2`. -/
theorem c7_counterexample :
    jitterPossible 8 3 ∧
    (ReconnectManager.backoffStep ⟨1, 100, 8⟩ 3).current_backoff = 19 ∧
    ¬(ReconnectManager.backoffStep ⟨1, 100, 8⟩ 3).current_backoff ≤
        min 100 (2 * 8 + 8 / 4) := by
  refine ⟨Or.inr (by omega), rfl, by decide⟩

theorem bytesLt_irrefl : ∀ a : List Nat, bytesLt a a = false
  | [] => rfl
  | x :: xs => by simp [bytesLt, bytesLt_irrefl xs]

theorem bytesLt_asymm : ∀ a b : List Nat,
    bytesLt a b = true → bytesLt b a = false
  | [], [], h => by simp [bytesLt] at h
  | [], _ :: _, _ => rfl
  | _ :: _, [], h => by simp [bytesLt] at h
  | a :: as, b :: bs, h => by
      rcases Nat.lt_trichotomy a b with hlt | heq | hgt
      · simp [bytesLt, hlt, Nat.lt_asymm hlt]
      · subst heq
        simp only [bytesLt, lt_irrefl, if_false] at h ⊢
        exact bytesLt_asymm as bs h
      · simp [bytesLt, hgt, Nat.lt_asymm hgt] at h

theorem bytesLt_ne {a b : List Nat} (h : bytesLt a b = true) : a ≠ b := by
  intro he
  subst he
  simp [bytesLt_irrefl] at h

theorem beBytes_length : ∀ k n : Nat, (beBytes k n).length = k
  | 0, _ => rfl
  | k + 1, n => by simp [beBytes, beBytes_length k]

/-- On values below `256 ^ k`, lexicographic order of the `k`-byte
big-endian encodings is numeric order. -/
theorem beBytes_lt_iff : ∀ (k n m : Nat), n < 256 ^ k → m < 256 ^ k →
    (bytesLt (beBytes k n) (beBytes k m) = true ↔ n < m)
  | 0, n, m, hn, hm => by
      simp only [pow_zero] at hn hm
      simp only [beBytes, bytesLt, Bool.false_eq_true, false_iff, not_lt]
      omega
  | k + 1, n, m, hn, hm => by
      have hpow : 0 < 256 ^ k := Nat.pos_pow_of_pos k (by norm_num)
      have hn' : n % 256 ^ k < 256 ^ k := Nat.mod_lt _ hpow
      have hm' : m % 256 ^ k < 256 ^ k := Nat.mod_lt _ hpow
      have IH := beBytes_lt_iff k (n % 256 ^ k) (m % 256 ^ k) hn' hm'
      have e1 := Nat.div_add_mod n (256 ^ k)
      have e2 := Nat.div_add_mod m (256 ^ k)
      simp only [beBytes, bytesLt]
      by_cases h1 : n / 256 ^ k < m / 256 ^ k
      · rw [if_pos h1]
        exact ⟨fun _ => Nat.lt_of_div_lt_div h1, fun _ => rfl⟩
      · by_cases h2 : m / 256 ^ k < n / 256 ^ k
        · rw [if_neg h1, if_pos h2]
          refine ⟨fun hf => absurd hf Bool.false_ne_true, fun hnm => ?_⟩
          have := Nat.lt_of_div_lt_div h2
          omega
        · have heq : n / 256 ^ k = m / 256 ^ k := by omega
          rw [heq] at e1
          rw [if_neg h1, if_neg h2, IH]
          omega

/-- Two values below `256 ^ k` with the same `k`-byte encoding are equal. -/
theorem beBytes_inj (k n m : Nat) (hn : n < 256 ^ k) (hm : m < 256 ^ k)
    (h : beBytes k n = beBytes k m) : n = m := by
  rcases Nat.lt_trichotomy n m with hlt | heq | hgt
  · have hx := (beBytes_lt_iff k n m hn hm).mpr hlt
    rw [h] at hx
    simp [bytesLt_irrefl] at hx
  · exact heq
  · have hx := (beBytes_lt_iff k m n hm hn).mpr hgt
    rw [h] at hx
    simp [bytesLt_irrefl] at hx

/-- Lexicographic comparison of equal-length prefixes decomposes an
ordered pair of concatenations. -/
theorem bytesLt_append : ∀ (a b u v : List Nat), a.length = b.length →
    bytesLt (a ++ u) (b ++ v) = true →
    bytesLt a b = true ∨ (a = b ∧ bytesLt u v = true)
  | [], [], u, v, _, h => Or.inr ⟨rfl, h⟩
  | [], _ :: _, _, _, hl, _ => by simp at hl
  | _ :: _, [], _, _, hl, _ => by simp at hl
  | a :: as, b :: bs, u, v, hl, h => by
      have hl' : as.length = bs.length := by simpa using hl
      rcases Nat.lt_trichotomy a b with hlt | heq | hgt
      · exact Or.inl (by simp [bytesLt, hlt])
      · subst heq
        simp only [List.cons_append, bytesLt, lt_irrefl, if_false] at h ⊢
        rcases bytesLt_append as bs u v hl' h with h3 | ⟨hab, h4⟩
        · exact Or.inl h3
        · exact Or.inr ⟨by rw [hab], h4⟩
      · simp [List.cons_append, bytesLt, hgt, Nat.lt_asymm hgt] at h

/-- Key order implies timestamp order: if one `make_key` precedes another
lexicographically and both timestamps fit an `i64`'s non-negative range,
the first timestamp is not larger. -/
theorem key_lt_ts_le (e1 e2 : QEnv) (h1 : e1.ts < 2 ^ 64) (h2 : e2.ts < 2 ^ 64)
    (h : bytesLt (make_key e1) (make_key e2) = true) : e1.ts ≤ e2.ts := by
  have h64 : (256 : Nat) ^ 8 = 2 ^ 64 := by norm_num
  have hb1 : e1.ts < 256 ^ 8 := by rw [h64]; exact h1
  have hb2 : e2.ts < 256 ^ 8 := by rw [h64]; exact h2
  have hlen : (beBytes 8 e1.ts).length = (beBytes 8 e2.ts).length := by
    simp [beBytes_length]
  rcases bytesLt_append _ _ _ _ hlen h with hk | ⟨he, _⟩
  · exact le_of_lt ((beBytes_lt_iff 8 _ _ hb1 hb2).mp hk)
  · exact le_of_eq (beBytes_inj 8 _ _ hb1 hb2 he)

/-- Inserting an envelope whose key is strictly largest appends it. -/
theorem sledInsert_append (k : List Nat) (v : QEnv) :
    ∀ q : Queue, (∀ kv ∈ q, bytesLt kv.1 k = true) →
    sledInsert k v q = q ++ [(k, v)]
  | [], _ => rfl
  | kv :: rest, h => by
      have hkv := h kv (List.mem_cons_self _ _)
      have h1 : bytesLt k kv.1 = false := bytesLt_asymm _ _ hkv
      have h2 : k ≠ kv.1 := fun he => (bytesLt_ne hkv) he.symm
      simp [sledInsert, h1, h2,
        sledInsert_append k v rest (fun x hx => h x (List.mem_cons_of_mem _ hx))]

/-- Claim C4: after every enqueue pruning runs in order — age first, then
count — and at the count cap the dropped entries are the oldest (their keys
precede every retained key), never the newly enqueued envelope, which
stays in the store.  The hypotheses are the data-model invariants: the
store is sorted, envelope timestamps are monotonic (so the new key is
strictly largest), the fresh `Utc::now()` timestamp is not already beyond
`max_age`, and `queue_max_events` is positive, as config validation
requires. -/
theorem c4_enqueue_prunes (cutoff max_events : Nat) (e : QEnv) (q : Queue)
    (hs : sortedQ q)
    (hmax : ∀ kv ∈ q, bytesLt kv.1 (make_key e) = true)
    (hage : ¬ e.ts < cutoff) (hcap : 1 ≤ max_events) :
    enqueueOutcome cutoff max_events e q := by
  have hins : sledInsert (make_key e) e q = q ++ [(make_key e, e)] :=
    sledInsert_append _ _ q hmax
  have ha : agePrune cutoff (sledInsert (make_key e) e q)
      = agePrune cutoff q ++ [(make_key e, e)] := by
    rw [hins]
    unfold agePrune
    rw [List.filter_append]
    simp [hage]
  have hq2 : (q ++ [(make_key e, e)]).Pairwise fun a b => bytesLt a.1 b.1 = true := by
    rw [List.pairwise_append]
    refine ⟨hs, List.pairwise_singleton _ _, ?_⟩
    intro a hma b hmb
    rw [List.mem_singleton] at hmb
    subst hmb
    exact hmax a hma
  have hA : (agePrune cutoff (sledInsert (make_key e) e q)).Pairwise
      fun a b => bytesLt a.1 b.1 = true := by
    rw [hins]
    exact hq2.filter _
  have hAform := ha
  have hr : enqueue cutoff max_events e q
      = countPrune max_events (agePrune cutoff (sledInsert (make_key e) e q)) := rfl
  refine ⟨rfl, ?_, ?_, ?_⟩
  · -- the new envelope survives the count prune
    rw [hr]
    unfold countPrune
    split
    · rename_i hlen
      rw [hAform] at hlen ⊢
      rw [List.drop_append_eq_append_drop]
      have hk : (agePrune cutoff q ++ [(make_key e, e)]).length - max_events
          - (agePrune cutoff q).length = 0 := by
        simp only [List.length_append, List.length_singleton] at hlen ⊢
        omega
      rw [hk]
      exact List.mem_append_right _ (List.mem_singleton.mpr rfl)
    · rw [hAform]
      exact List.mem_append_right _ (List.mem_singleton.mpr rfl)
  · -- the count cap holds
    rw [hr]
    unfold countPrune
    split
    · rename_i hlen
      rw [List.length_drop]
      omega
    · rename_i hlen
      omega
  · -- dropped entries were over-age or older than everything retained
    intro kv hkv hnot
    by_cases hc : kv.2.ts < cutoff
    · exact Or.inl hc
    · right
      have hkvA : kv ∈ agePrune cutoff (sledInsert (make_key e) e q) := by
        unfold agePrune
        exact List.mem_filter.mpr ⟨hkv, by simp [hc]⟩
      rw [hr] at hnot ⊢
      unfold countPrune at hnot ⊢
      split at hnot
      · rename_i hlen
        rw [if_pos hlen]
        set A := agePrune cutoff (sledInsert (make_key e) e q) with hAdef
        set k := A.length - max_events with hkdef
        have hsplit : A.take k ++ A.drop k = A := List.take_append_drop k A
        have htake : kv ∈ A.take k := by
          rw [← hsplit] at hkvA
          rcases List.mem_append.mp hkvA with h | h
          · exact h
          · exact absurd h hnot
        have hcross := (List.pairwise_append.mp (hsplit ▸ hA)).2.2
        intro kv2 hkv2
        exact hcross kv htake kv2 hkv2
      · rename_i hlen
        rw [if_neg hlen]
        exact absurd hkvA hnot

/-- Claim C5: on a well-formed store — keys are the big-endian nanosecond
timestamp concatenated with the UUID bytes, iteration is in key order —
`dequeue_batch` returns the oldest entries in non-decreasing timestamp
order and removes nothing. -/
theorem c5_dequeue_chronological (limit : Nat) (q : Queue) (hwf : wfQ q) :
    drainOutcome limit q := by
  obtain ⟨hs, hkv⟩ := hwf
  have hts : q.Pairwise fun a b => a.2.ts ≤ b.2.ts := by
    refine hs.imp_of_mem ?_
    intro a b hma hmb hr
    obtain ⟨hka, hba⟩ := hkv a hma
    obtain ⟨hkb, hbb⟩ := hkv b hmb
    exact key_lt_ts_le a.2 b.2 hba hbb (by rwa [← hka, ← hkb])
  refine ⟨?_, ?_, rfl⟩
  · simp only [dequeue_batch]
    exact List.pairwise_map.mpr (hts.sublist (List.take_sublist _ _))
  · simp only [dequeue_batch]
    intro x hx kv2 hkv2
    rw [← List.take_append_drop limit q] at hts
    obtain ⟨-, -, cross⟩ := List.pairwise_append.mp hts
    obtain ⟨kv1, hkv1, rfl⟩ := List.mem_map.mp hx
    exact cross kv1 hkv1 kv2 hkv2

/-- Witness for C4: enqueueing a third, newest envelope into the two-entry
store with the cap at 2 drops the oldest entry and keeps the new one. -/
theorem c4_enqueue_witness : enqueueOutcome 10 2 envC sampleQueue :=
  c4_enqueue_prunes 10 2 envC sampleQueue (by unfold sortedQ; decide) (by decide)
    (by decide) (by decide)

/-- Witness for C5: draining the two-entry store returns both envelopes in
timestamp order without touching the store. -/
theorem c5_dequeue_witness : drainOutcome 2 sampleQueue :=
  c5_dequeue_chronological 2 sampleQueue ⟨by unfold sortedQ; decide, by decide⟩

/-- Claim C6 demonstration: with a send function that fails on every call
(e.g. a broken socket) over a non-empty queue, `replay` never returns for
any amount of fuel: the failing envelope is never removed, the same batch
is re-dequeued, and the loop spins forever (the code's own log message
"stopping replay" notwithstanding, the `break` leaves only the inner
`for`).  The claim — replay stops and falls through to reconnect — is
what the spec and the log message promise; the code does not do it. -/
theorem c6_replay_never_terminates : ∀ (fuel total : Nat),
    replayFuel (fun _ => false) 64 fuel c6Queue total = none
  | 0, _ => rfl
  | fuel + 1, total => by
      have IH := c6_replay_never_terminates fuel total
      simpa [replayFuel, dequeue_batch, c6Queue, removeEnvs] using IH

end PiDoor
